import Mathlib

/-!
Verification of the Pirate Treasure repository: the SHA-256 commitment
scheme and treasure vault of the frontend (`zkUtils.ts`), the reveal
gating of the game component (`MyGameGame.tsx`), the service layer
(`myGameService.ts`), and the on-chain room state machine, which is not
shipped in this repository and is therefore modelled from the spec.
Bytes are `Nat` values below 256, 32-bit words are `Nat` values below
2 to the 32, with explicit wrap-around where the code overflows.
-/

namespace Sha256

/-- The 32-bit modulus. -/
def M32 : Nat := 4294967296

/-- Right rotation of a 32-bit word by `n` bits. -/
def rotr (n w : Nat) : Nat := ((w >>> n) ||| (w <<< (32 - n))) % M32

/-- Logical right shift of a 32-bit word. -/
def shr (n w : Nat) : Nat := w >>> n

/-- Bitwise complement inside 32 bits. -/
def compl32 (x : Nat) : Nat := x ^^^ 4294967295

/-- FIPS 180-4 big Sigma-0. -/
def bsig0 (x : Nat) : Nat := rotr 2 x ^^^ rotr 13 x ^^^ rotr 22 x

/-- FIPS 180-4 big Sigma-1. -/
def bsig1 (x : Nat) : Nat := rotr 6 x ^^^ rotr 11 x ^^^ rotr 25 x

/-- FIPS 180-4 small sigma-0. -/
def ssig0 (x : Nat) : Nat := rotr 7 x ^^^ rotr 18 x ^^^ shr 3 x

/-- FIPS 180-4 small sigma-1. -/
def ssig1 (x : Nat) : Nat := rotr 17 x ^^^ rotr 19 x ^^^ shr 10 x

/-- FIPS 180-4 choice function. -/
def ch (x y z : Nat) : Nat := (x &&& y) ^^^ (compl32 x &&& z)

/-- FIPS 180-4 majority function. -/
def maj (x y z : Nat) : Nat := (x &&& y) ^^^ (x &&& z) ^^^ (y &&& z)

/-- The 64 SHA-256 round constants of FIPS 180-4, as decimal naturals. -/
def K : List Nat :=
  [1116352408, 1899447441, 3049323471, 3921009573, 961987163,
   1508970993, 2453635748, 2870763221, 3624381080, 310598401,
   607225278, 1426881987, 1925078388, 2162078206, 2614888103,
   3248222580, 3835390401, 4022224774, 264347078, 604807628,
   770255983, 1249150122, 1555081692, 1996064986, 2554220882,
   2821834349, 2952996808, 3210313671, 3336571891, 3584528711,
   113926993, 338241895, 666307205, 773529912, 1294757372,
   1396182291, 1695183700, 1986661051, 2177026350, 2456956037,
   2730485921, 2820302411, 3259730800, 3345764771, 3516065817,
   3600352804, 4094571909, 275423344, 430227734, 506948616,
   659060556, 883997877, 958139571, 1322822218, 1537002063,
   1747873779, 1955562222, 2024104815, 2227730452, 2361852424,
   2428436474, 2756734187, 3204031479, 3329325298]

/-- The SHA-256 working state: eight 32-bit words. -/
structure HashState where
  a : Nat
  b : Nat
  c : Nat
  d : Nat
  e : Nat
  f : Nat
  g : Nat
  h : Nat
deriving DecidableEq, Repr

/-- The SHA-256 initial hash value of FIPS 180-4, as decimal naturals. -/
def H0 : HashState :=
  ⟨1779033703, 3144134277, 1013904242, 2773480762,
   1359893119, 2600822924, 528734635, 1541459225⟩

/-- Big-endian 4-byte encoding of the low 32 bits of a natural number. -/
def be32 (n : Nat) : List Nat :=
  [n / 16777216 % 256, n / 65536 % 256, n / 256 % 256, n % 256]

/-- Big-endian 8-byte encoding of the low 64 bits of a natural number. -/
def be64 (n : Nat) : List Nat := be32 (n >>> 32) ++ be32 n

/-- SHA-256 padding for a message of `len` bytes: a 0x80 byte, zeros to 56 mod
64, then the bit length as 8 big-endian bytes. -/
def padBytes (len : Nat) : List Nat :=
  0x80 :: List.replicate ((119 - len % 64) % 64) 0 ++ be64 (8 * len)

/-- Group a byte list into big-endian 32-bit words. -/
def toWords : List Nat → List Nat
  | a :: b :: c :: d :: rest => (a * 16777216 + b * 65536 + c * 256 + d) :: toWords rest
  | _ => []

/-- One step of the message-schedule extension; the accumulator keeps the
schedule in reverse, most recent word first. -/
def extendStep (rws : List Nat) : List Nat :=
  (ssig1 (rws.getD 1 0) + rws.getD 6 0 + ssig0 (rws.getD 14 0) + rws.getD 15 0) % M32 :: rws

/-- Iterate the schedule extension `n` times. -/
def extendN : Nat → List Nat → List Nat
  | 0, rws => rws
  | n + 1, rws => extendN n (extendStep rws)

/-- The 64-word message schedule of one 64-byte block. -/
def schedule (block : List Nat) : List Nat :=
  (extendN 48 (toWords block).reverse).reverse

/-- One SHA-256 compression round with round constant `k` and schedule word `w`. -/
def round (st : HashState) (kw : Nat × Nat) : HashState :=
  let t1 := (st.h + bsig1 st.e + ch st.e st.f st.g + kw.1 + kw.2) % M32
  let t2 := (bsig0 st.a + maj st.a st.b st.c) % M32
  ⟨(t1 + t2) % M32, st.a, st.b, st.c, (st.d + t1) % M32, st.e, st.f, st.g⟩

/-- Compress one 64-byte block into the running hash. -/
def compress (st : HashState) (block : List Nat) : HashState :=
  let o := (List.zip K (schedule block)).foldl round st
  ⟨(st.a + o.a) % M32, (st.b + o.b) % M32, (st.c + o.c) % M32, (st.d + o.d) % M32,
   (st.e + o.e) % M32, (st.f + o.f) % M32, (st.g + o.g) % M32, (st.h + o.h) % M32⟩

/-- Split a byte list into 64-byte blocks; fuel-driven so that it is
structurally recursive and evaluates in the kernel. -/
def blocksAux : Nat → List Nat → List (List Nat)
  | 0, _ => []
  | _, [] => []
  | fuel + 1, bs => bs.take 64 :: blocksAux fuel (bs.drop 64)

/-- Split a byte list into 64-byte blocks. -/
def blocks (bs : List Nat) : List (List Nat) := blocksAux bs.length bs

/-- Serialize the final hash state to its 32 digest bytes. -/
def digestBytes (st : HashState) : List Nat :=
  be32 st.a ++ be32 st.b ++ be32 st.c ++ be32 st.d ++ be32 st.e ++ be32 st.f ++ be32 st.g ++ be32 st.h

/-- SHA-256 of a byte message, as 32 digest bytes. -/
def sha256 (msg : List Nat) : List Nat :=
  digestBytes ((blocks (msg ++ padBytes msg.length)).foldl compress H0)

end Sha256

-- ============================================================================
-- Frontend crypto utilities (src/my-game-frontend/src/games/my-game/zkUtils.ts)
-- ============================================================================

namespace ZkUtils

/-- DataView.setUint32 with littleEndian = false: overwrite 4 bytes at `offset`
with the big-endian encoding of the low 32 bits of `value`. -/
def setUint32BE (buf : List Nat) (offset value : Nat) : List Nat :=
  buf.take offset ++ Sha256.be32 value ++ buf.drop (offset + 4)

/-- Uint8Array.set: overwrite `src.length` bytes of `buf` starting at `offset`. -/
def bufSet (buf : List Nat) (src : List Nat) (offset : Nat) : List Nat :=
  buf.take offset ++ src ++ buf.drop (offset + src.length)

/-- From `generateCommitment` in zkUtils.ts: allocate a zeroed 4+4+4+32 byte
buffer, write roomId, islandId, tileId big-endian at offsets 0, 4, 8, copy the
salt bytes at offset 12, and SHA-256 the buffer.  The TypeScript function takes
the salt as a hex string and returns hex; the hex codec is a bijection on byte
lists, so the embedding works on the decoded bytes.  The `_ownerHash` argument
is kept for interface compatibility and never read. -/
def generateCommitment (roomId islandId tileId : Nat) (_ownerHash : String)
    (saltBytes : List Nat) : List Nat :=
  let buf0 := List.replicate 44 0
  let buf1 := setUint32BE buf0 0 roomId
  let buf2 := setUint32BE buf1 4 islandId
  let buf3 := setUint32BE buf2 8 tileId
  let buf4 := bufSet buf3 saltBytes 12
  Sha256.sha256 buf4

/-- Treasure location data, private to the player (zkUtils.ts). -/
structure TreasureLocation where
  roomId : Nat
  islandId : Nat
  tileId : Nat
  ownerAddress : String
  salt : String
  commitment : String
deriving DecidableEq, Repr

/-- In-memory treasure store of zkUtils.ts, a JS Map from string keys to
locations, modelled as an association list where the first binding wins. -/
structure TreasureVault where
  locations : List (String × TreasureLocation)
deriving DecidableEq, Repr

/-- JS Map.set: bind `key`, replacing any previous binding. -/
def TreasureVault.mapSet (v : TreasureVault) (key : String) (loc : TreasureLocation) :
    TreasureVault :=
  ⟨(key, loc) :: v.locations.filter (fun p => p.1 != key)⟩

/-- JS Map.get as an Option. -/
def TreasureVault.mapGet (v : TreasureVault) (key : String) : Option TreasureLocation :=
  (v.locations.find? (fun p => p.1 == key)).map (fun p => p.2)

/-- TreasureVault.store: save under the player-specific key
`room-(roomId)-(ownerAddress)`. -/
def TreasureVault.store (v : TreasureVault) (roomId : Nat) (location : TreasureLocation) :
    TreasureVault :=
  v.mapSet ("room-" ++ toString roomId ++ "-" ++ location.ownerAddress) location

/-- TreasureVault.getByOwner: look up the player-specific key. -/
def TreasureVault.getByOwner (v : TreasureVault) (roomId : Nat) (ownerAddress : String) :
    Option TreasureLocation :=
  v.mapGet ("room-" ++ toString roomId ++ "-" ++ ownerAddress)

/-- The deprecated TreasureVault.get, which always returns null. -/
def TreasureVault.getDeprecated (_v : TreasureVault) (_roomId : Nat) :
    Option TreasureLocation :=
  none

/-- TreasureVault.clear: JS Map.delete of the bare key `room-(roomId)`. -/
def TreasureVault.clear (v : TreasureVault) (roomId : Nat) : TreasureVault :=
  ⟨v.locations.filter (fun p => p.1 != "room-" ++ toString roomId)⟩

end ZkUtils

-- ============================================================================
-- On-chain room state machine.  The Soroban contract source is not part of
-- this repository snapshot (only its generated bindings, docs and frontend
-- callers are), so the contract is modelled from the spec.
-- ============================================================================

namespace Contract

/-- A record of a single dig action (bindings.ts DigRecord). -/
structure DigRecord where
  digger : String
  island_id : Nat
  tile_id : Nat
deriving DecidableEq, Repr

/-- Modelled from the spec (section 3, Room): the full room record.  `player_b`
and `winner` are absent until set, phase is 0=Waiting, 1=Burying, 2=Playing,
3=Ended as in bindings.ts. -/
structure Room where
  room_id : Nat
  player_a : String
  player_b : Option String
  player_a_points : Int
  player_b_points : Int
  phase : Nat
  has_commitment_a : Bool
  has_commitment_b : Bool
  turn_is_a : Bool
  island_tile_counts : List Nat
  digs : List DigRecord
  winner : Option String
  game_active : Bool
deriving DecidableEq, Repr

/-- The error taxonomy of the contract (bindings.ts Errors 1..15), plus a
distinct failure for a rejected external Hub call, which the spec says aborts
the whole operation. -/
inductive Err where
  | RoomExists | RoomNotFound | RoomFull | SelfPlay | WrongPhase | NotYourTurn
  | AlreadyDug | AlreadyBuried | InvalidIsland | InvalidTile | CommitmentMismatch
  | NotAPlayer | GameEnded | NoOpponent | Unauthorized | HubFailure
deriving DecidableEq, Repr

/-- Modelled from the spec (section 6): ledger storage, a Room per room id and
a write-once commitment digest per (room id, is player a). -/
structure ContractState where
  rooms : List (Nat × Room)
  commitments : List ((Nat × Bool) × List Nat)
deriving DecidableEq, Repr

/-- Modelled from the spec (section 6): the external Hub settlement authority,
reduced to the outcome of its two calls. -/
structure Hub where
  start_ok : Bool
  end_ok : Bool
deriving DecidableEq, Repr

/-- Observable events of one operation, used to state the ordering contract:
the remote Hub call strictly before any local write. -/
inductive Event where
  | hubStartGame (room_id : Nat)
  | hubEndGame (room_id : Nat) (winner : String)
  | writeLocal (room_id : Nat)
deriving DecidableEq, Repr

/-- Read a room from storage. -/
def lookupRoom (st : ContractState) (id : Nat) : Option Room :=
  (st.rooms.find? (fun p => p.1 == id)).map (fun p => p.2)

/-- Write a room to storage. -/
def setRoom (st : ContractState) (id : Nat) (r : Room) : ContractState :=
  { st with rooms := (id, r) :: st.rooms.filter (fun p => p.1 != id) }

/-- Read a commitment digest from storage. -/
def lookupCommitment (st : ContractState) (id : Nat) (isA : Bool) : Option (List Nat) :=
  (st.commitments.find? (fun p => p.1.1 == id && p.1.2 == isA)).map (fun p => p.2)

/-- Write a commitment digest to storage. -/
def setCommitment (st : ContractState) (id : Nat) (isA : Bool) (c : List Nat) :
    ContractState :=
  { st with
    commitments :=
      ((id, isA), c) :: st.commitments.filter (fun p => !(p.1.1 == id && p.1.2 == isA)) }

/-- Modelled from the spec (section 4.2): `compute_commitment` is the SHA-256
digest of the big-endian 4-byte encodings of room id, island id and tile id
followed by the 32-byte salt. -/
def compute_commitment (room_id island_id tile_id : Nat) (salt : List Nat) : List Nat :=
  Sha256.sha256 (Sha256.be32 room_id ++ Sha256.be32 island_id ++ Sha256.be32 tile_id ++ salt)

/-- Modelled from the spec (section 4.1, create_room): fails RoomExists if the
id is taken, otherwise initializes a Waiting room with the fixed island tile
counts, no digs and no winner. -/
def create_room (st : ContractState) (room_id : Nat) (player_a : String)
    (player_a_points : Int) : Except Err (Room × ContractState) :=
  match lookupRoom st room_id with
  | some _ => .error .RoomExists
  | none =>
    let r : Room :=
      { room_id := room_id, player_a := player_a, player_b := none,
        player_a_points := player_a_points, player_b_points := 0, phase := 0,
        has_commitment_a := false, has_commitment_b := false, turn_is_a := false,
        island_tile_counts := [10, 20, 30], digs := [], winner := none,
        game_active := false }
    .ok (r, setRoom st room_id r)

/-- Modelled from the spec (section 4.1, join_room): fails RoomNotFound,
RoomFull when player b is already set, SelfPlay when the joining identity
equals player a; otherwise records player b and his stake without changing
the phase. -/
def join_room (st : ContractState) (room_id : Nat) (player_b : String)
    (player_b_points : Int) : Except Err (Room × ContractState) :=
  match lookupRoom st room_id with
  | none => .error .RoomNotFound
  | some room =>
    if room.player_b.isSome then .error .RoomFull
    else if player_b = room.player_a then .error .SelfPlay
    else
      let r := { room with player_b := some player_b, player_b_points := player_b_points }
      .ok (r, setRoom st room_id r)

/-- Modelled from the spec (section 4.1, start_room): requires phase Waiting
with both players set and both identities jointly authorizing; invokes the
Hub start_game call strictly before the local phase write, and aborts with
the room unchanged when the Hub call fails. -/
def start_room (hub : Hub) (st : ContractState) (room_id : Nat)
    (player_a player_b : String) (_pa_points _pb_points : Int) :
    Except Err (Room × ContractState) × List Event :=
  match lookupRoom st room_id with
  | none => (.error .RoomNotFound, [])
  | some room =>
    if room.phase = 0 ∧ room.player_b.isSome then
      if player_a = room.player_a ∧ room.player_b = some player_b then
        if hub.start_ok then
          let r := { room with phase := 1, game_active := true }
          (.ok (r, setRoom st room_id r), [.hubStartGame room_id, .writeLocal room_id])
        else (.error .HubFailure, [.hubStartGame room_id])
      else (.error .Unauthorized, [])
    else (.error .WrongPhase, [])

/-- Modelled from the spec (section 4.1, bury_treasure): requires Burying
phase and a player caller whose commitment is not yet set; stores the
per-role commitment and flag, and when both flags become true auto-advances
the phase to Playing with player A to move. -/
def bury_treasure (st : ContractState) (room_id : Nat) (player : String)
    (commitment : List Nat) : Except Err (Room × ContractState) :=
  match lookupRoom st room_id with
  | none => .error .RoomNotFound
  | some room =>
    if room.phase = 1 then
      if player = room.player_a ∨ room.player_b = some player then
        let isA : Bool := player == room.player_a
        if (if isA then room.has_commitment_a else room.has_commitment_b) then
          .error .AlreadyBuried
        else
          let r1 :=
            if isA then { room with has_commitment_a := true }
            else { room with has_commitment_b := true }
          let r2 :=
            if r1.has_commitment_a ∧ r1.has_commitment_b then
              { r1 with phase := 2, turn_is_a := true }
            else r1
          .ok (r2, setCommitment (setRoom st room_id r2) room_id isA commitment)
      else .error .NotAPlayer
    else .error .WrongPhase

/-- Modelled from the spec (section 4.1, dig): requires Playing phase, a
player caller on his turn and a valid undug tile; appends the dig record and
flips the turn flag. -/
def dig (st : ContractState) (room_id : Nat) (player : String)
    (island_id tile_id : Nat) : Except Err (Room × ContractState) :=
  match lookupRoom st room_id with
  | none => .error .RoomNotFound
  | some room =>
    if room.phase = 2 then
      if player = room.player_a ∨ room.player_b = some player then
        let isA : Bool := player == room.player_a
        if (if room.turn_is_a then isA else room.player_b == some player) then
          if island_id < room.island_tile_counts.length then
            if tile_id < room.island_tile_counts.getD island_id 0 then
              if room.digs.any (fun d =>
                  d.digger == player && d.island_id == island_id && d.tile_id == tile_id) then
                .error .AlreadyDug
              else
                let r := { room with
                  digs := room.digs ++ [⟨player, island_id, tile_id⟩],
                  turn_is_a := !room.turn_is_a }
                .ok (r, setRoom st room_id r)
            else .error .InvalidTile
          else .error .InvalidIsland
        else .error .NotYourTurn
      else .error .NotAPlayer
    else .error .WrongPhase

/-- Modelled from the spec (section 4.1, reveal_treasure): requires Playing
phase (GameEnded on an Ended room) and a player caller; recomputes the digest
over (room id, island, tile, salt) and compares it to the commitment stored
for the opponent role, never the one of the caller; on match invokes the Hub
end_game call strictly before writing the winner and phase.  There is no turn
check. -/
def reveal_treasure (hub : Hub) (st : ContractState) (room_id : Nat) (player : String)
    (island_id tile_id : Nat) (salt : List Nat) :
    Except Err (Room × ContractState) × List Event :=
  match lookupRoom st room_id with
  | none => (.error .RoomNotFound, [])
  | some room =>
    if room.phase = 3 then (.error .GameEnded, [])
    else if room.phase ≠ 2 then (.error .WrongPhase, [])
    else if player = room.player_a ∨ room.player_b = some player then
      let isA : Bool := player == room.player_a
      match lookupCommitment st room_id (!isA) with
      | none => (.error .NoOpponent, [])
      | some opp =>
        if compute_commitment room_id island_id tile_id salt = opp then
          if hub.end_ok then
            let r := { room with winner := some player, phase := 3, game_active := false }
            (.ok (r, setRoom st room_id r), [.hubEndGame room_id player, .writeLocal room_id])
          else (.error .HubFailure, [.hubEndGame room_id player])
        else (.error .CommitmentMismatch, [])
    else (.error .NotAPlayer, [])

/-- Modelled from the spec (section 4.1, get_room): read-only, fails
RoomNotFound when the room is absent, otherwise returns the full snapshot. -/
def get_room (st : ContractState) (room_id : Nat) : Except Err Room :=
  match lookupRoom st room_id with
  | none => .error .RoomNotFound
  | some room => .ok room

/-- Modelled from the spec (section 4.1): get_game is the alias of get_room
used by the frontend service layer. -/
def get_game (st : ContractState) (room_id : Nat) : Except Err Room :=
  get_room st room_id

/-- The ledger state a caller observes after start_room: the new state on
success, the unchanged state on failure (atomic commit-or-abort). -/
def startStateAfter (hub : Hub) (st : ContractState) (room_id : Nat)
    (player_a player_b : String) (pa_points pb_points : Int) : ContractState :=
  match (start_room hub st room_id player_a player_b pa_points pb_points).1 with
  | .ok (_, st2) => st2
  | .error _ => st

/-- The ledger state a caller observes after reveal_treasure: the new state on
success, the unchanged state on failure (atomic commit-or-abort). -/
def revealStateAfter (hub : Hub) (st : ContractState) (room_id : Nat) (player : String)
    (island_id tile_id : Nat) (salt : List Nat) : ContractState :=
  match (reveal_treasure hub st room_id player island_id tile_id salt).1 with
  | .ok (_, st2) => st2
  | .error _ => st

/-- The ledger states reachable from deployment by successful contract calls,
with arbitrary Hub outcomes. -/
inductive Reachable : ContractState → Prop where
  | init : Reachable ⟨[], []⟩
  | create (st : ContractState) (id : Nat) (pa : String) (sa : Int)
      (r : Room) (st2 : ContractState) :
      Reachable st → create_room st id pa sa = .ok (r, st2) → Reachable st2
  | join (st : ContractState) (id : Nat) (pb : String) (sb : Int)
      (r : Room) (st2 : ContractState) :
      Reachable st → join_room st id pb sb = .ok (r, st2) → Reachable st2
  | start (hub : Hub) (st : ContractState) (id : Nat) (pa pb : String) (sa sb : Int)
      (r : Room) (st2 : ContractState) :
      Reachable st → (start_room hub st id pa pb sa sb).1 = .ok (r, st2) → Reachable st2
  | bury (st : ContractState) (id : Nat) (p : String) (c : List Nat)
      (r : Room) (st2 : ContractState) :
      Reachable st → bury_treasure st id p c = .ok (r, st2) → Reachable st2
  | digStep (st : ContractState) (id : Nat) (p : String) (i t : Nat)
      (r : Room) (st2 : ContractState) :
      Reachable st → dig st id p i t = .ok (r, st2) → Reachable st2
  | reveal (hub : Hub) (st : ContractState) (id : Nat) (p : String) (i t : Nat)
      (s : List Nat) (r : Room) (st2 : ContractState) :
      Reachable st → (reveal_treasure hub st id p i t s).1 = .ok (r, st2) → Reachable st2

end Contract

-- ============================================================================
-- Frontend component and service layer
-- ============================================================================

namespace Frontend

open Contract ZkUtils

/-- From the canReveal memo of MyGameGame.tsx: true only when a room is
loaded, the phase is Playing (2), it is the turn of the caller, and a
hash-verified discovery is present. -/
def canReveal (room : Option Room) (phase : Int) (isMyTurn : Bool)
    (discoveredTreasure : Option TreasureLocation) : Bool :=
  if room.isNone ∨ phase ≠ 2 ∨ isMyTurn = false then false
  else discoveredTreasure.isSome

/-- From MyGameService.importAndSignAuthEntry in myGameService.ts: the guard
that rejects a Player B address equal to the Player A address parsed from the
signed auth entry, before any transaction is built.  The XDR and network
plumbing around the guard is elided. -/
def importAndSignSelfPlayCheck (playerA playerBAddress : String) : Except String Unit :=
  if playerBAddress = playerA then .error "Cannot play against yourself" else .ok ()

/-- From MyGameService.getRoom in myGameService.ts: simulate get_room and
map any failure (including RoomNotFound) to null. -/
def serviceGetRoom (st : ContractState) (roomId : Nat) : Option Room :=
  (get_room st roomId).toOption

/-- From MyGameService.getGame in myGameService.ts: alias of getRoom. -/
def serviceGetGame (st : ContractState) (sessionId : Nat) : Option Room :=
  serviceGetRoom st sessionId

end Frontend

namespace Contract

/-- The no-self-play room invariant: in every stored room, a joined player b
differs from player a. -/
def PlayersDistinct (st : ContractState) : Prop :=
  ∀ id r b, lookupRoom st id = some r → r.player_b = some b → b ≠ r.player_a

end Contract

-- ============================================================================
-- Concrete sample states, used by the witnesses
-- ============================================================================

namespace Samples

open Contract

/-- The all-zero 32-byte salt. -/
def salt0 : List Nat := List.replicate 32 0

/-- A Hub whose calls succeed. -/
def hubOK : Hub := ⟨true, true⟩

/-- A Hub whose calls fail. -/
def hubDown : Hub := ⟨false, false⟩

/-- The deployment state. -/
def st0 : ContractState := ⟨[], []⟩

/-- Room 1 just created by player A. -/
def roomA : Room :=
  { room_id := 1, player_a := "A", player_b := none, player_a_points := 5,
    player_b_points := 0, phase := 0, has_commitment_a := false,
    has_commitment_b := false, turn_is_a := false, island_tile_counts := [10, 20, 30],
    digs := [], winner := none, game_active := false }

/-- State after create_room. -/
def st1 : ContractState := ⟨[(1, roomA)], []⟩

/-- Room 1 after player B joined. -/
def roomAB : Room := { roomA with player_b := some "B", player_b_points := 7 }

/-- State after join_room. -/
def st2 : ContractState := ⟨[(1, roomAB)], []⟩

/-- The digest of the sample location (island 0, tile 5) in room 1. -/
def digest0 : List Nat := compute_commitment 1 0 5 salt0

/-- Room 1 in the Playing phase. -/
def roomPlaying : Room :=
  { roomAB with
    phase := 2
    has_commitment_a := true
    has_commitment_b := true
    turn_is_a := true
    game_active := true }

/-- A Playing state where both players buried the identical location. -/
def stPlaying : ContractState :=
  ⟨[(1, roomPlaying)], [((1, true), digest0), ((1, false), digest0)]⟩

/-- Room 1 in the Burying phase with only the player A commitment present. -/
def roomBurying : Room := { roomAB with phase := 1, has_commitment_a := true }

/-- A Burying state awaiting the player B commitment. -/
def stBurying : ContractState := ⟨[(1, roomBurying)], [((1, true), digest0)]⟩

/-- Room 1 right after the second bury auto-advanced the phase. -/
def roomBothBuried : Room :=
  { roomBurying with has_commitment_b := true, phase := 2, turn_is_a := true }

/-- The state produced by the second bury. -/
def stBothBuried : ContractState :=
  setCommitment (setRoom stBurying 1 roomBothBuried) 1 false digest0

end Samples

-- ============================================================================
-- Helper lemmas
-- ============================================================================

theorem digestBytes_length (st : Sha256.HashState) : (Sha256.digestBytes st).length = 32 := by
  simp [Sha256.digestBytes, Sha256.be32]

theorem sha256_length (msg : List Nat) : (Sha256.sha256 msg).length = 32 := by
  unfold Sha256.sha256
  exact digestBytes_length _

theorem commitment_buffer_eq (r i t : Nat) (salt : List Nat) (hs : salt.length = 32) :
    ZkUtils.bufSet
      (ZkUtils.setUint32BE (ZkUtils.setUint32BE (ZkUtils.setUint32BE
        (List.replicate 44 0) 0 r) 4 i) 8 t) salt 12 =
      Sha256.be32 r ++ Sha256.be32 i ++ Sha256.be32 t ++ salt := by
  simp only [ZkUtils.bufSet, hs]
  have h1 : List.take 12 (ZkUtils.setUint32BE (ZkUtils.setUint32BE (ZkUtils.setUint32BE
      (List.replicate 44 0) 0 r) 4 i) 8 t) =
      Sha256.be32 r ++ Sha256.be32 i ++ Sha256.be32 t := rfl
  have h2 : List.drop (12 + 32) (ZkUtils.setUint32BE (ZkUtils.setUint32BE (ZkUtils.setUint32BE
      (List.replicate 44 0) 0 r) 4 i) 8 t) = [] := rfl
  rw [h1, h2]
  simp

theorem find_in_filter {α : Type} (p q : α → Bool) (l : List α)
    (h : ∀ x, p x = true → q x = true) :
    (l.filter q).find? p = l.find? p := by
  induction l with
  | nil => rfl
  | cons a l ih =>
    by_cases hq : q a = true
    · rw [List.filter_cons_of_pos hq]
      by_cases hp : p a = true
      · simp [List.find?, hp]
      · simp only [Bool.not_eq_true] at hp
        simp [List.find?, hp, ih]
    · simp only [Bool.not_eq_true] at hq
      have hp : p a = false := by
        cases hpa : p a
        · rfl
        · rw [h a hpa] at hq; exact absurd hq (by simp)
      rw [List.filter_cons_of_neg (by simp [hq])]
      rw [ih, List.find?]
      rw [hp]

theorem find_cons_filter {α : Type} (p q : α → Bool) (x : α) (l : List α)
    (hx : p x = false) (h : ∀ y, p y = true → q y = true) :
    ((x :: l.filter q).find? p) = l.find? p := by
  simp only [List.find?, hx]
  exact find_in_filter p q l h

theorem storeKey_ne_clearKey (r : Nat) (o : String) :
    "room-" ++ toString r ++ "-" ++ o ≠ "room-" ++ toString r := by
  intro h
  have hlen := congrArg String.length h
  simp only [String.length_append, show ("-" : String).length = 1 from rfl,
    show ("room-" : String).length = 5 from rfl] at hlen
  omega

theorem not_bool_ne (b : Bool) : (!b) ≠ b := by cases b <;> decide

open Contract in
theorem reveal_success_characterization (hub : Hub) (st : ContractState) (id : Nat)
    (player : String) (i t : Nat) (salt : List Nat) :
    (reveal_treasure hub st id player i t salt).1.isOk = true ↔
      ∃ room c, lookupRoom st id = some room ∧ room.phase = 2 ∧
        (player = room.player_a ∨ room.player_b = some player) ∧
        lookupCommitment st id (!(player == room.player_a)) = some c ∧
        compute_commitment id i t salt = c ∧ hub.end_ok = true := by
  unfold Contract.reveal_treasure
  cases hl : Contract.lookupRoom st id with
  | none => simp [hl, Except.isOk, Except.toBool]
  | some room =>
    by_cases h3 : room.phase = 3
    · simp [hl, h3, Except.isOk, Except.toBool]
    · by_cases h2 : room.phase = 2
      · by_cases hp : player = room.player_a ∨ room.player_b = some player
        · cases hcm : Contract.lookupCommitment st id (!(player == room.player_a)) with
          | none => simp [hl, h3, h2, hp, hcm, Except.isOk, Except.toBool]
          | some c =>
            by_cases hcc : Contract.compute_commitment id i t salt = c
            · cases hh : hub.end_ok <;>
                simp [hl, h3, h2, hp, hcm, hcc, hh, Except.isOk, Except.toBool]
            · simp [hl, h3, h2, hp, hcm, hcc, Except.isOk, Except.toBool]
        · simp [hl, h3, h2, hp, Except.isOk, Except.toBool]
      · simp [hl, h3, h2, Except.isOk, Except.toBool]

open Contract in
theorem lookupCommitment_setCommitment_ne (st : ContractState) (id : Nat)
    (isA isB : Bool) (c : List Nat) (h : isB ≠ isA) :
    lookupCommitment (setCommitment st id isA c) id isB =
      lookupCommitment st id isB := by
  unfold Contract.lookupCommitment Contract.setCommitment
  refine congrArg (Option.map _) (find_cons_filter _ _ _ _ ?_ ?_)
  · have h2 : (isA == isB) = false := beq_eq_false_iff_ne.mpr (fun hh => h hh.symm)
    simp [h2]
  · intro y hy
    have hy1 : y.1.1 = id ∧ y.1.2 = isB := by simpa using hy
    simp [hy1.1, hy1.2, beq_eq_false_iff_ne.mpr h]

open Contract in
theorem create_ok_state (st : ContractState) (id : Nat) (pa : String) (sa : Int)
    (r : Room) (st2 : ContractState)
    (heq : create_room st id pa sa = .ok (r, st2)) :
    st2 = setRoom st id r ∧ r.player_b = none := by
  unfold Contract.create_room at heq
  cases hl : Contract.lookupRoom st id with
  | none =>
    simp only [hl] at heq
    injection heq with h
    injection h with h1 h2
    subst h1
    subst h2
    exact ⟨rfl, rfl⟩
  | some room2 =>
    simp only [hl] at heq
    exact absurd heq (by simp)

open Contract in
theorem join_ok_state (st : ContractState) (id : Nat) (pb : String) (sb : Int)
    (r : Room) (st2 : ContractState)
    (heq : join_room st id pb sb = .ok (r, st2)) :
    ∃ room, lookupRoom st id = some room ∧ st2 = setRoom st id r ∧
      r.player_a = room.player_a ∧ r.player_b = some pb ∧ pb ≠ room.player_a := by
  unfold Contract.join_room at heq
  cases hl : Contract.lookupRoom st id with
  | none => simp only [hl] at heq; exact absurd heq (by simp)
  | some room =>
    simp only [hl] at heq
    repeat' split at heq
    all_goals try (exact Except.noConfusion heq)
    all_goals
      injection heq with h
      injection h with h1 h2
      subst h1
      subst h2
      exact ⟨room, rfl, rfl, rfl, rfl, by assumption⟩

open Contract in
theorem start_ok_state (hub : Hub) (st : ContractState) (id : Nat) (pa pb : String)
    (sa sb : Int) (r : Room) (st2 : ContractState)
    (heq : (start_room hub st id pa pb sa sb).1 = .ok (r, st2)) :
    ∃ room, lookupRoom st id = some room ∧ st2 = setRoom st id r ∧
      r.player_a = room.player_a ∧ r.player_b = room.player_b := by
  unfold Contract.start_room at heq
  cases hl : Contract.lookupRoom st id with
  | none => simp only [hl] at heq; exact absurd heq (by simp)
  | some room =>
    simp only [hl] at heq
    repeat' split at heq
    all_goals dsimp only at heq
    all_goals try (exact Except.noConfusion heq)
    all_goals
      injection heq with h
      injection h with h1 h2
      subst h1
      subst h2
      exact ⟨room, rfl, rfl, rfl, rfl⟩

open Contract in
theorem dig_ok_state (st : ContractState) (id : Nat) (p : String) (i t : Nat)
    (r : Room) (st2 : ContractState)
    (heq : dig st id p i t = .ok (r, st2)) :
    ∃ room, lookupRoom st id = some room ∧ st2 = setRoom st id r ∧
      r.player_a = room.player_a ∧ r.player_b = room.player_b := by
  unfold Contract.dig at heq
  cases hl : Contract.lookupRoom st id with
  | none => simp only [hl] at heq; exact absurd heq (by simp)
  | some room =>
    simp only [hl] at heq
    repeat' split at heq
    all_goals try (exact Except.noConfusion heq)
    all_goals
      injection heq with h
      injection h with h1 h2
      subst h1
      subst h2
      exact ⟨room, rfl, rfl, rfl, rfl⟩

open Contract in
theorem reveal_ok_state (hub : Hub) (st : ContractState) (id : Nat) (p : String)
    (i t : Nat) (s : List Nat) (r : Room) (st2 : ContractState)
    (heq : (reveal_treasure hub st id p i t s).1 = .ok (r, st2)) :
    ∃ room, lookupRoom st id = some room ∧ st2 = setRoom st id r ∧
      r.player_a = room.player_a ∧ r.player_b = room.player_b := by
  unfold Contract.reveal_treasure at heq
  cases hl : Contract.lookupRoom st id with
  | none => simp only [hl] at heq; exact absurd heq (by simp)
  | some room =>
    simp only [hl] at heq
    repeat' split at heq
    all_goals dsimp only at heq
    all_goals try (exact Except.noConfusion heq)
    all_goals
      injection heq with h
      injection h with h1 h2
      subst h1
      subst h2
      exact ⟨room, rfl, rfl, rfl, rfl⟩

open Contract in
theorem bury_ok_state (st : ContractState) (id : Nat) (p : String) (c : List Nat)
    (r : Room) (st2 : ContractState)
    (heq : bury_treasure st id p c = .ok (r, st2)) :
    ∃ room isA, lookupRoom st id = some room ∧
      st2 = setCommitment (setRoom st id r) id isA c ∧
      r.player_a = room.player_a ∧ r.player_b = room.player_b := by
  unfold Contract.bury_treasure at heq
  cases hl : Contract.lookupRoom st id with
  | none => simp only [hl] at heq; exact absurd heq (by simp)
  | some room =>
    simp only [hl] at heq
    repeat' split at heq
    all_goals try (exact Except.noConfusion heq)
    all_goals
      injection heq with h
      injection h with h1 h2
      subst h1
      subst h2
      exact ⟨room, p == room.player_a, rfl, rfl, rfl, rfl⟩

open Contract in
theorem start_room_outcomes (hub : Hub) (st : ContractState) (id : Nat) (pa pb : String)
    (sa sb : Int) :
    ((start_room hub st id pa pb sa sb).2 = [] ∧
      ∃ e, (start_room hub st id pa pb sa sb).1 = .error e) ∨
    (hub.start_ok = false ∧ (start_room hub st id pa pb sa sb).1 = .error .HubFailure ∧
      (start_room hub st id pa pb sa sb).2 = [.hubStartGame id]) ∨
    (hub.start_ok = true ∧
      (start_room hub st id pa pb sa sb).2 = [.hubStartGame id, .writeLocal id] ∧
      ∃ r st2, (start_room hub st id pa pb sa sb).1 = .ok (r, st2)) := by
  unfold Contract.start_room
  cases hl : Contract.lookupRoom st id with
  | none => exact Or.inl ⟨rfl, Err.RoomNotFound, rfl⟩
  | some room =>
    by_cases h1 : room.phase = 0 ∧ room.player_b.isSome
    · by_cases h2 : pa = room.player_a ∧ room.player_b = some pb
      · cases hh : hub.start_ok with
        | false =>
          refine Or.inr (Or.inl ⟨rfl, ?_, ?_⟩) <;> simp [h1, h2, hh]
        | true =>
          refine Or.inr (Or.inr ⟨rfl, ?_,
            { room with phase := 1, game_active := true },
            setRoom st id { room with phase := 1, game_active := true }, ?_⟩) <;>
            simp [h1, h2, hh]
      · refine Or.inl ⟨?_, Err.Unauthorized, ?_⟩ <;> simp [h1, h2]
    · refine Or.inl ⟨?_, Err.WrongPhase, ?_⟩ <;> simp [h1]

open Contract in
theorem reveal_room_outcomes (hub : Hub) (st : ContractState) (id : Nat) (player : String)
    (i t : Nat) (salt : List Nat) :
    ((reveal_treasure hub st id player i t salt).2 = [] ∧
      ∃ e, (reveal_treasure hub st id player i t salt).1 = .error e) ∨
    (hub.end_ok = false ∧
      (reveal_treasure hub st id player i t salt).1 = .error .HubFailure ∧
      (reveal_treasure hub st id player i t salt).2 = [.hubEndGame id player]) ∨
    (hub.end_ok = true ∧
      (reveal_treasure hub st id player i t salt).2 =
        [.hubEndGame id player, .writeLocal id] ∧
      ∃ r st2, (reveal_treasure hub st id player i t salt).1 = .ok (r, st2)) := by
  unfold Contract.reveal_treasure
  cases hl : Contract.lookupRoom st id with
  | none => exact Or.inl ⟨rfl, Err.RoomNotFound, rfl⟩
  | some room =>
    by_cases h3 : room.phase = 3
    · refine Or.inl ⟨?_, Err.GameEnded, ?_⟩ <;> simp [h3]
    · by_cases h2 : room.phase = 2
      · by_cases hp : player = room.player_a ∨ room.player_b = some player
        · cases hcm : Contract.lookupCommitment st id (!(player == room.player_a)) with
          | none =>
            refine Or.inl ⟨?_, Err.NoOpponent, ?_⟩ <;> simp [h3, h2, hp, hcm]
          | some c =>
            by_cases hcc : Contract.compute_commitment id i t salt = c
            · cases hh : hub.end_ok with
              | false =>
                refine Or.inr (Or.inl ⟨rfl, ?_, ?_⟩) <;> simp [h3, h2, hp, hcm, hcc, hh]
              | true =>
                refine Or.inr (Or.inr ⟨rfl, ?_,
                  { room with winner := some player, phase := 3, game_active := false },
                  setRoom st id
                    { room with winner := some player, phase := 3, game_active := false },
                  ?_⟩) <;> simp [h3, h2, hp, hcm, hcc, hh]
            · refine Or.inl ⟨?_, Err.CommitmentMismatch, ?_⟩ <;> simp [h3, h2, hp, hcm, hcc]
        · refine Or.inl ⟨?_, Err.NotAPlayer, ?_⟩ <;> simp [h3, h2, hp]
      · refine Or.inl ⟨?_, Err.WrongPhase, ?_⟩ <;> simp [h3, h2]

open Contract in
theorem lookupRoom_setRoom (st : ContractState) (id : Nat) (r : Room) (id2 : Nat) :
    lookupRoom (setRoom st id r) id2 = if id2 = id then some r else lookupRoom st id2 := by
  unfold Contract.lookupRoom Contract.setRoom
  by_cases h : id2 = id
  · subst h
    simp [List.find?]
  · rw [if_neg h]
    have hpa : (id == id2) = false := beq_eq_false_iff_ne.mpr (fun hh => h hh.symm)
    simp only [List.find?, hpa]
    exact congrArg (Option.map _)
      (find_in_filter (fun p => p.1 == id2) (fun p => p.1 != id) st.rooms
        (fun x hx => by
          have hx1 : x.1 = id2 := by simpa using hx
          simp [bne_iff_ne, hx1, h]))

open Contract in
theorem playersDistinct_setRoom (st : ContractState) (id : Nat) (r : Room)
    (hst : PlayersDistinct st) (hr : ∀ b, r.player_b = some b → b ≠ r.player_a) :
    PlayersDistinct (setRoom st id r) := by
  intro id2 r2 b hl hb
  rw [lookupRoom_setRoom] at hl
  split at hl
  · injection hl with h
    subst h
    exact hr b hb
  · exact hst id2 r2 b hl hb

open Contract in
theorem playersDistinct_setCommitment (st : ContractState) (id : Nat) (isA : Bool)
    (c : List Nat) (hst : PlayersDistinct st) :
    PlayersDistinct (setCommitment st id isA c) :=
  fun id2 r2 b hl hb => hst id2 r2 b hl hb

open Contract in
theorem playersDistinct_update (st : ContractState) (id : Nat) (room r2 : Room)
    (hl : lookupRoom st id = some room) (hst : PlayersDistinct st)
    (hpa : r2.player_a = room.player_a) (hpb : r2.player_b = room.player_b) :
    PlayersDistinct (setRoom st id r2) := by
  apply playersDistinct_setRoom _ _ _ hst
  intro b hbb
  rw [hpb] at hbb
  rw [hpa]
  exact hst id room b hl hbb

open Contract in
theorem reachable_playersDistinct (st : ContractState) (h : Reachable st) :
    PlayersDistinct st := by
  induction h with
  | init =>
    intro id r b hl hb
    exact absurd hl (by simp [Contract.lookupRoom])
  | create st id pa sa r st2 hre heq ih =>
    obtain ⟨hst2, hpb⟩ := create_ok_state st id pa sa r st2 heq
    subst hst2
    apply playersDistinct_setRoom _ _ _ ih
    intro b hbb
    rw [hpb] at hbb
    cases hbb
  | join st id pb sb r st2 hre heq ih =>
    obtain ⟨room, hl, hst2, hpa, hpb, hne⟩ := join_ok_state st id pb sb r st2 heq
    subst hst2
    apply playersDistinct_setRoom _ _ _ ih
    intro b hbb
    rw [hpb] at hbb
    injection hbb with hb2
    subst hb2
    rw [hpa]
    exact hne
  | start hub st id pa pb sa sb r st2 hre heq ih =>
    obtain ⟨room, hl, hst2, hpa, hpb⟩ := start_ok_state hub st id pa pb sa sb r st2 heq
    subst hst2
    exact playersDistinct_update st id room r hl ih hpa hpb
  | bury st id p c r st2 hre heq ih =>
    obtain ⟨room, isA, hl, hst2, hpa, hpb⟩ := bury_ok_state st id p c r st2 heq
    subst hst2
    exact playersDistinct_setCommitment _ _ _ _
      (playersDistinct_update st id room r hl ih hpa hpb)
  | digStep st id p i t r st2 hre heq ih =>
    obtain ⟨room, hl, hst2, hpa, hpb⟩ := dig_ok_state st id p i t r st2 heq
    subst hst2
    exact playersDistinct_update st id room r hl ih hpa hpb
  | reveal hub st id p i t s r st2 hre heq ih =>
    obtain ⟨room, hl, hst2, hpa, hpb⟩ := reveal_ok_state hub st id p i t s r st2 heq
    subst hst2
    exact playersDistinct_update st id room r hl ih hpa hpb

-- ============================================================================
-- Claim theorems
-- ============================================================================

/-- C1: for every 32-bit room id, island id and tile id and every 32-byte salt,
the commitment digest of `generateCommitment` equals the SHA-256 hash of the
concatenation of the big-endian 4-byte encodings of room id, island id and
tile id followed by the salt, in that fixed field order, and the digest is 32
bytes long. -/
theorem commitment_digest_layout (roomId islandId tileId : Nat) (ownerHash : String)
    (salt : List Nat) (hr : roomId < 2 ^ 32) (hi : islandId < 2 ^ 32)
    (ht : tileId < 2 ^ 32) (hs : salt.length = 32) :
    ZkUtils.generateCommitment roomId islandId tileId ownerHash salt =
      Sha256.sha256 (Sha256.be32 roomId ++ Sha256.be32 islandId ++
        Sha256.be32 tileId ++ salt) ∧
    (ZkUtils.generateCommitment roomId islandId tileId ownerHash salt).length = 32 := by
  constructor
  · simp only [ZkUtils.generateCommitment]
    exact congrArg Sha256.sha256 (commitment_buffer_eq roomId islandId tileId salt hs)
  · exact sha256_length _

/-- Witness for C1 at room id 3, island 1, tile 5 and the zero salt. -/
theorem commitment_digest_layout_witness :
    (3 < 2 ^ 32 ∧ (List.replicate 32 (0 : Nat)).length = 32) ∧
    ZkUtils.generateCommitment 3 1 5 "" (List.replicate 32 0) =
      Sha256.sha256 (Sha256.be32 3 ++ Sha256.be32 1 ++ Sha256.be32 5 ++
        List.replicate 32 0) :=
  ⟨⟨by norm_num, by simp⟩,
   (commitment_digest_layout 3 1 5 "" (List.replicate 32 0)
     (by norm_num) (by norm_num) (by norm_num) (by simp)).1⟩

/-- C2: in a Playing room, for a caller who is one of the two players and with
the opponent commitment stored, reveal_treasure succeeds exactly when the
recomputed digest equals the commitment stored for the opponent role; the
state is quantified with the commitment of the caller left arbitrary, and the
second conjunct shows the outcome is unchanged when the entry stored under
the caller role is overwritten with any value, including the identical
digest, so the comparison is never against the callers own commitment.
Modelled from the spec because the contract source is not in the
repository. -/
theorem reveal_checks_opponent_commitment (hub : Contract.Hub)
    (st : Contract.ContractState) (id : Nat) (player : String) (island tile : Nat)
    (salt : List Nat) (room : Contract.Room) (c : List Nat)
    (hlook : Contract.lookupRoom st id = some room)
    (hphase : room.phase = 2)
    (hplayer : player = room.player_a ∨ room.player_b = some player)
    (hopp : Contract.lookupCommitment st id (!(player == room.player_a)) = some c)
    (hhub : hub.end_ok = true) :
    ((Contract.reveal_treasure hub st id player island tile salt).1.isOk = true ↔
      Contract.compute_commitment id island tile salt = c) ∧
    (∀ own, ((Contract.reveal_treasure hub
        (Contract.setCommitment st id (player == room.player_a) own)
        id player island tile salt).1.isOk = true ↔
      Contract.compute_commitment id island tile salt = c)) := by
  have main : ∀ st2 : Contract.ContractState, Contract.lookupRoom st2 id = some room →
      Contract.lookupCommitment st2 id (!(player == room.player_a)) = some c →
      ((Contract.reveal_treasure hub st2 id player island tile salt).1.isOk = true ↔
        Contract.compute_commitment id island tile salt = c) := by
    intro st2 hl2 hc2
    rw [reveal_success_characterization]
    constructor
    · rintro ⟨room2, c2, hl3, -, -, hcm2, hcc2, -⟩
      rw [hl2] at hl3
      injection hl3 with hh
      subst hh
      rw [hc2] at hcm2
      injection hcm2 with hh
      subst hh
      exact hcc2
    · intro hcc
      exact ⟨room, c, hl2, hphase, hplayer, hc2, hcc, hhub⟩
  refine ⟨main st hlook hopp, fun own => main _ hlook ?_⟩
  rw [lookupCommitment_setCommitment_ne]
  · exact hopp
  · exact not_bool_ne _

/-- Witness for C2 in a Playing state where both players buried the identical
location, caller player A. -/
theorem reveal_checks_opponent_commitment_witness :
    Contract.lookupRoom Samples.stPlaying 1 = some Samples.roomPlaying ∧
    Samples.roomPlaying.phase = 2 ∧
    Contract.lookupCommitment Samples.stPlaying 1
      (!("A" == Samples.roomPlaying.player_a)) = some Samples.digest0 ∧
    ((Contract.reveal_treasure Samples.hubOK Samples.stPlaying 1 "A" 0 5
        Samples.salt0).1.isOk = true ↔
      Contract.compute_commitment 1 0 5 Samples.salt0 = Samples.digest0) := by
  refine ⟨rfl, rfl, rfl, ?_⟩
  exact (reveal_checks_opponent_commitment Samples.hubOK Samples.stPlaying 1 "A" 0 5
    Samples.salt0 Samples.roomPlaying Samples.digest0 rfl rfl (Or.inl rfl) rfl rfl).1

/-- C3: for start_room and reveal_treasure, the external Hub call is emitted
strictly before the local write event, a local write implies the Hub call
succeeded, and a failed Hub call leaves the operation failed with the Room
state completely unchanged.  Modelled from the spec because the contract
source is not in the repository. -/
theorem hub_call_before_local_write (hub : Contract.Hub) (st : Contract.ContractState)
    (id : Nat) (pa pb : String) (sa sb : Int) (player : String) (i t : Nat)
    (salt : List Nat) :
    (Contract.Event.writeLocal id ∈ (Contract.start_room hub st id pa pb sa sb).2 →
      hub.start_ok = true ∧
      (Contract.start_room hub st id pa pb sa sb).2 =
        [.hubStartGame id, .writeLocal id]) ∧
    (hub.start_ok = false →
      (Contract.start_room hub st id pa pb sa sb).1.isOk = false ∧
      Contract.startStateAfter hub st id pa pb sa sb = st) ∧
    (Contract.Event.writeLocal id ∈
        (Contract.reveal_treasure hub st id player i t salt).2 →
      hub.end_ok = true ∧
      (Contract.reveal_treasure hub st id player i t salt).2 =
        [.hubEndGame id player, .writeLocal id]) ∧
    (hub.end_ok = false →
      (Contract.reveal_treasure hub st id player i t salt).1.isOk = false ∧
      Contract.revealStateAfter hub st id player i t salt = st) := by
  refine ⟨?_, ?_, ?_, ?_⟩
  · intro hmem
    rcases start_room_outcomes hub st id pa pb sa sb with ⟨h2, -⟩ | ⟨-, -, h2⟩ | ⟨hh, h2, -⟩
    · rw [h2] at hmem; cases hmem
    · rw [h2] at hmem; simp at hmem
    · exact ⟨hh, h2⟩
  · intro hfail
    rcases start_room_outcomes hub st id pa pb sa sb with ⟨-, e, he⟩ | ⟨-, he, -⟩ | ⟨hh, -, -⟩
    · constructor
      · simp [he, Except.isOk, Except.toBool]
      · unfold Contract.startStateAfter
        rw [he]
    · constructor
      · simp [he, Except.isOk, Except.toBool]
      · unfold Contract.startStateAfter
        rw [he]
    · simp [hh] at hfail
  · intro hmem
    rcases reveal_room_outcomes hub st id player i t salt with ⟨h2, -⟩ | ⟨-, -, h2⟩ | ⟨hh, h2, -⟩
    · rw [h2] at hmem; cases hmem
    · rw [h2] at hmem; simp at hmem
    · exact ⟨hh, h2⟩
  · intro hfail
    rcases reveal_room_outcomes hub st id player i t salt with ⟨-, e, he⟩ | ⟨-, he, -⟩ | ⟨hh, -, -⟩
    · constructor
      · simp [he, Except.isOk, Except.toBool]
      · unfold Contract.revealStateAfter
        rw [he]
    · constructor
      · simp [he, Except.isOk, Except.toBool]
      · unfold Contract.revealStateAfter
        rw [he]
    · simp [hh] at hfail

/-- Witness for C3 with a failing Hub on the joined sample state. -/
theorem hub_call_before_local_write_witness :
    ((Contract.start_room Samples.hubDown Samples.st2 1 "A" "B" 5 7).1.isOk = false ∧
      Contract.startStateAfter Samples.hubDown Samples.st2 1 "A" "B" 5 7 = Samples.st2) ∧
    ((Contract.reveal_treasure Samples.hubDown Samples.st2 1 "A" 0 5
        Samples.salt0).1.isOk = false ∧
      Contract.revealStateAfter Samples.hubDown Samples.st2 1 "A" 0 5 Samples.salt0 =
        Samples.st2) := by
  have h := hub_call_before_local_write Samples.hubDown Samples.st2 1 "A" "B" 5 7
    "A" 0 5 Samples.salt0
  exact ⟨h.2.1 rfl, h.2.2.2 rfl⟩

/-- C4: in a Burying room, when a successful bury_treasure leaves both
commitment flags true, the updated room is in the Playing phase with player A
to move, before any dig.  Modelled from the spec because the contract source
is not in the repository. -/
theorem second_bury_advances_to_playing (st : Contract.ContractState) (id : Nat)
    (player : String) (c : List Nat) (room r2 : Contract.Room)
    (st2 : Contract.ContractState)
    (hlook : Contract.lookupRoom st id = some room)
    (hphase : room.phase = 1)
    (hok : Contract.bury_treasure st id player c = .ok (r2, st2))
    (ha : r2.has_commitment_a = true) (hb : r2.has_commitment_b = true) :
    r2.phase = 2 ∧ r2.turn_is_a = true := by
  rcases Bool.eq_false_or_eq_true (player == room.player_a) with hA | hA
  · simp [Contract.bury_treasure, hlook, hphase, hA] at hok
    split at hok
    · split at hok
      · simp at hok
      · injection hok with h
        injection h with h1 h2
        subst h1
        split at hb
        · rename_i hcond
          constructor
          · simp [if_pos hcond]
          · simp [if_pos hcond]
        · rename_i hcond
          simp at hb
          exact absurd hb hcond
    · simp at hok
  · simp [Contract.bury_treasure, hlook, hphase, hA] at hok
    split at hok
    · split at hok
      · simp at hok
      · injection hok with h
        injection h with h1 h2
        subst h1
        split at ha
        · rename_i hcond
          constructor
          · simp [if_pos hcond]
          · simp [if_pos hcond]
        · rename_i hcond
          simp at ha
          exact absurd ha hcond
    · simp at hok

/-- Witness for C4: player B buries second in the sample Burying state. -/
theorem second_bury_advances_to_playing_witness :
    Contract.lookupRoom Samples.stBurying 1 = some Samples.roomBurying ∧
    Samples.roomBurying.phase = 1 ∧
    Contract.bury_treasure Samples.stBurying 1 "B" Samples.digest0 =
      .ok (Samples.roomBothBuried, Samples.stBothBuried) ∧
    Samples.roomBothBuried.has_commitment_a = true ∧
    Samples.roomBothBuried.has_commitment_b = true ∧
    (Samples.roomBothBuried.phase = 2 ∧ Samples.roomBothBuried.turn_is_a = true) :=
  ⟨rfl, rfl, rfl, rfl, rfl,
   second_bury_advances_to_playing Samples.stBurying 1 "B" Samples.digest0
     Samples.roomBurying Samples.roomBothBuried Samples.stBothBuried
     rfl rfl rfl rfl rfl⟩

/-- C5: generateCommitment is deterministic and side-effect-free, embedded as
a pure function: any two invocations with identical room id, island id, tile
id and salt return the identical digest; and at a concrete base input a
single bit change in each field, room id, island id, tile id or salt,
produces a different digest. -/
theorem commitment_deterministic_and_bit_sensitive :
    (∀ (r1 i1 t1 : Nat) (h1 : String) (s1 : List Nat) (r2 i2 t2 : Nat) (h2 : String)
        (s2 : List Nat), r1 = r2 → i1 = i2 → t1 = t2 → s1 = s2 →
      ZkUtils.generateCommitment r1 i1 t1 h1 s1 =
        ZkUtils.generateCommitment r2 i2 t2 h2 s2) ∧
    ZkUtils.generateCommitment 1 1 5 "" (List.replicate 32 0) ≠
      ZkUtils.generateCommitment 0 1 5 "" (List.replicate 32 0) ∧
    ZkUtils.generateCommitment 1 1 5 "" (List.replicate 32 0) ≠
      ZkUtils.generateCommitment 1 3 5 "" (List.replicate 32 0) ∧
    ZkUtils.generateCommitment 1 1 5 "" (List.replicate 32 0) ≠
      ZkUtils.generateCommitment 1 1 4 "" (List.replicate 32 0) ∧
    ZkUtils.generateCommitment 1 1 5 "" (List.replicate 32 0) ≠
      ZkUtils.generateCommitment 1 1 5 "" (128 :: List.replicate 31 0) := by
  refine ⟨?_, by decide, by decide, by decide, by decide⟩
  rintro r1 i1 t1 h1 s1 r2 i2 t2 h2 s2 rfl rfl rfl rfl
  rfl

/-- Witness for C5: two invocations with identical hashed inputs and distinct
owner hash strings agree. -/
theorem commitment_deterministic_and_bit_sensitive_witness :
    ZkUtils.generateCommitment 1 1 5 "a" (List.replicate 32 0) =
      ZkUtils.generateCommitment 1 1 5 "b" (List.replicate 32 0) :=
  commitment_deterministic_and_bit_sensitive.1 1 1 5 "a" (List.replicate 32 0)
    1 1 5 "b" (List.replicate 32 0) rfl rfl rfl rfl

/-- C6: in every reachable contract state a joined player b differs from
player a; join_room by an identity equal to player a on a room still waiting
for player b fails SelfPlay; and the client-side start_room flow of
importAndSignAuthEntry rejects a Player B address equal to the Player A
address before building the transaction.  The contract parts are modelled
from the spec because the contract source is not in the repository. -/
theorem no_self_play :
    (∀ st, Contract.Reachable st → Contract.PlayersDistinct st) ∧
    (∀ (st : Contract.ContractState) (id : Nat) (room : Contract.Room) (sb : Int),
      Contract.lookupRoom st id = some room → room.player_b = none →
      Contract.join_room st id room.player_a sb = .error .SelfPlay) ∧
    (∀ pa pb, (Frontend.importAndSignSelfPlayCheck pa pb).isOk = true ↔ pb ≠ pa) := by
  refine ⟨?_, ?_, ?_⟩
  · exact fun st h => reachable_playersDistinct st h
  · intro st id room sb hl hb
    simp [Contract.join_room, hl, hb]
  · intro pa pb
    by_cases h : pb = pa <;>
      simp [Frontend.importAndSignSelfPlayCheck, h, Except.isOk, Except.toBool]

/-- Witness for C6 on the reachable two-player sample state. -/
theorem no_self_play_witness :
    Contract.Reachable Samples.st2 ∧ ("B" : String) ≠ "A" ∧
    Contract.join_room Samples.st1 1 "A" 7 = .error .SelfPlay ∧
    ((Frontend.importAndSignSelfPlayCheck "A" "A").isOk = true ↔ ("A" : String) ≠ "A") := by
  have hreach : Contract.Reachable Samples.st2 :=
    Contract.Reachable.join Samples.st1 1 "B" 7 Samples.roomAB Samples.st2
      (Contract.Reachable.create Samples.st0 1 "A" 5 Samples.roomA Samples.st1
        Contract.Reachable.init rfl) rfl
  refine ⟨hreach, ?_, ?_, ?_⟩
  · exact no_self_play.1 Samples.st2 hreach 1 Samples.roomAB "B" rfl rfl
  · exact no_self_play.2.1 Samples.st1 1 Samples.roomA 7 rfl rfl
  · exact no_self_play.2.2 "A" "A"

/-- C7: the frontend canReveal flag is true exactly when a room is loaded,
the phase is Playing, it is the turn of the caller and a hash-verified
discovery exists; and the contract reveal succeeds exactly under a condition
that mentions the phase check but no turn flag, so the contract itself does
not turn-gate reveal beyond the phase check.  The contract half is modelled
from the spec because the contract source is not in the repository. -/
theorem reveal_turn_gated_in_frontend_only :
    (∀ (room : Option Contract.Room) (phase : Int) (isMyTurn : Bool)
        (disc : Option ZkUtils.TreasureLocation),
      Frontend.canReveal room phase isMyTurn disc = true ↔
        room.isSome = true ∧ phase = 2 ∧ isMyTurn = true ∧ disc.isSome = true) ∧
    (∀ (hub : Contract.Hub) (st : Contract.ContractState) (id : Nat) (player : String)
        (i t : Nat) (salt : List Nat),
      (Contract.reveal_treasure hub st id player i t salt).1.isOk = true ↔
        ∃ room c, Contract.lookupRoom st id = some room ∧ room.phase = 2 ∧
          (player = room.player_a ∨ room.player_b = some player) ∧
          Contract.lookupCommitment st id (!(player == room.player_a)) = some c ∧
          Contract.compute_commitment id i t salt = c ∧ hub.end_ok = true) := by
  constructor
  · intro room phase isMyTurn disc
    cases room <;> cases isMyTurn <;> by_cases hp : phase = 2 <;>
      simp [Frontend.canReveal, hp]
  · intro hub st id player i t salt
    exact reveal_success_characterization hub st id player i t salt

/-- C8: get_game is the alias of get_room, both read-only: absent rooms give
RoomNotFound, present rooms give the full snapshot, and the service layer
maps the failure to null via toOption.  The contract half is modelled from
the spec because the contract source is not in the repository. -/
theorem get_room_get_game_equivalent (st : Contract.ContractState) (id : Nat) :
    Contract.get_game st id = Contract.get_room st id ∧
    (Contract.lookupRoom st id = none →
      Contract.get_room st id = .error .RoomNotFound) ∧
    (∀ r, Contract.lookupRoom st id = some r → Contract.get_room st id = .ok r) ∧
    Frontend.serviceGetRoom st id = (Contract.get_room st id).toOption ∧
    Frontend.serviceGetGame st id = Frontend.serviceGetRoom st id := by
  refine ⟨rfl, ?_, ?_, rfl, rfl⟩
  · intro h
    simp [Contract.get_room, h]
  · intro r h
    simp [Contract.get_room, h]

/-- Witness for C8: the absent room 5 in the empty state and the present
room 1 in the created sample state. -/
theorem get_room_get_game_equivalent_witness :
    Contract.get_room Samples.st0 5 = .error .RoomNotFound ∧
    Contract.get_room Samples.st1 1 = .ok Samples.roomA :=
  ⟨(get_room_get_game_equivalent Samples.st0 5).2.1 rfl,
   (get_room_get_game_equivalent Samples.st1 1).2.2.1 Samples.roomA rfl⟩

/-- C9: the commitment digest is independent of the ownerHash argument: for
any two owner hash values and identical remaining arguments,
generateCommitment returns the identical digest, since the parameter never
enters the hashed buffer. -/
theorem commitment_ignores_owner_hash (roomId islandId tileId : Nat)
    (salt : List Nat) (ownerHash1 ownerHash2 : String) :
    ZkUtils.generateCommitment roomId islandId tileId ownerHash1 salt =
      ZkUtils.generateCommitment roomId islandId tileId ownerHash2 salt := rfl

/-- C10: TreasureVault.clear never removes a location saved by
TreasureVault.store: store writes the player-specific key while clear
deletes the bare room key, so getByOwner returns the same result before and
after clear of the same room id, for every vault content. -/
theorem vault_clear_preserves_stored_locations (v : ZkUtils.TreasureVault)
    (roomId : Nat) (ownerAddress : String) :
    (v.clear roomId).getByOwner roomId ownerAddress =
      v.getByOwner roomId ownerAddress := by
  unfold ZkUtils.TreasureVault.clear ZkUtils.TreasureVault.getByOwner
    ZkUtils.TreasureVault.mapGet
  rw [find_in_filter]
  intro x hx
  have hkey : x.1 = "room-" ++ toString roomId ++ "-" ++ ownerAddress := by
    simpa using hx
  rw [hkey]
  simp only [bne_iff_ne, ne_eq]
  exact storeKey_ne_clearKey roomId ownerAddress
